import Mathlib

/-!
Verification development for the Rainbow_Points repository.

The definitions below are a shallow embedding of the TypeScript sources:

* `src/rainbow.ts` — key loading (`loadPrivateKeys`), address derivation
  (`getAddressFromPrivateKey`), the points-extraction engine inside
  `checkPointsOrUseReferralCode` (lines 1029-1299), the referral sub-flow
  (`enterReferralCode`, lines 1310-1855), the per-wallet orchestrator
  (`processWallet`, lines 1863-2030) and the batch loop (lines 2036-2122
  of the same file).
* `src/database.ts` — `shouldSkipWallet` and `saveWalletData`.

Strings are modelled as `List Char` where character-level scanning is
needed.  The JavaScript regular expressions of the extraction engine are
implemented directly with their backtracking semantics specialised to the
concrete patterns that appear in the source (documented at each
definition).  Asynchronous UI steps are modelled by an environment record
that fixes the outcome of each external interaction; JavaScript exceptions
are modelled with an explicit `Step` result type, and each `try/catch` of
the source becomes a `match` on that type.
-/

/-! ## Character classes used by the source's regular expressions -/

/-- Character class of JavaScript `\s` restricted to the code points the
source can actually meet (ASCII whitespace, NBSP, BOM, line/paragraph
separators).  It is used both by the `\s`/`[\s ,]` classes of the
extraction regexes and by `String.prototype.trim`. -/
def jsSpace (c : Char) : Bool :=
  c == ' ' || c == '\t' || c == '\n' || c == '\r' ||
  c == Char.ofNat 11 || c == Char.ofNat 12 || c == Char.ofNat 160 ||
  c == Char.ofNat 0x2028 || c == Char.ofNat 0x2029 || c == Char.ofNat 0xFEFF

/-- The separator class `[,\s ]` used by `cleanNumber` replacement and
by the thousands-group part of the number pattern. -/
def sepClass (c : Char) : Bool :=
  c == ',' || jsSpace c

/-- Hex-digit test, the `[a-fA-F0-9]` class of `loadPrivateKeys`. -/
def isHexDigit (c : Char) : Bool :=
  c.isDigit || ( 'a' ≤ c && c ≤ 'f') || ( 'A' ≤ c && c ≤ 'F')

/-! ## Substring search (JavaScript `includes` / `indexOf`) -/

/-- Whether `p` is a prefix of `t` (character-exact). -/
def isPrefixList : List Char → List Char → Bool
  | [], _ => true
  | _ :: _, [] => false
  | p :: ps, c :: cs => p == c && isPrefixList ps cs

/-- `String.prototype.includes`: `p` occurs in `t`. -/
def includesSub : List Char → List Char → Bool
  | [], p => p.isEmpty
  | c :: r, p => isPrefixList p (c :: r) || includesSub r p

/-- `String.prototype.indexOf`: index of the first occurrence of `p` in
`t`, `none` when absent. -/
def indexOfSub : List Char → List Char → Option Nat
  | [], p => if p.isEmpty then some 0 else none
  | c :: r, p =>
    if isPrefixList p (c :: r) then some 0
    else (indexOfSub r p).map (· + 1)

/-- Lower-cased copy of a character list; the source compares with
`text.toLowerCase().includes(pat)` where `pat` is already lower-case. -/
def lowerList (l : List Char) : List Char :=
  l.map Char.toLower

/-- Case-insensitive `includes` with an already lower-case pattern. -/
def includesCI (t p : List Char) : Bool :=
  includesSub (lowerList t) p

/-! ## Trimming and integer parsing -/

/-- `String.prototype.trim` on a character list. -/
def trimWs (l : List Char) : List Char :=
  ((l.dropWhile jsSpace).reverse.dropWhile jsSpace).reverse

/-- Accumulator-style decimal value of a digit list. -/
def digitsVal : List Char → Nat → Nat
  | [], acc => acc
  | c :: r, acc => digitsVal r (acc * 10 + (c.toNat - 48))

/-- JavaScript `parseInt(s, 10)` restricted to the inputs the extraction
engine feeds it: the `cleanNumber` strings (separator-stripped capture
groups), which are plain digit strings.  It is modelled as the value of the
maximal leading digit run, `none` (`NaN`) when there is none. -/
def jsParseInt (l : List Char) : Option Int :=
  let d := l.takeWhile Char.isDigit
  if d.isEmpty then none else some (Int.ofNat (digitsVal d 0))

/-- The shared tail of every extraction strategy (e.g. rainbow.ts lines
1050-1054): strip `[\s ,]` from the captured token, `parseInt`, and
accept only `!isNaN(num) && num > 0`. -/
def cleanAndParsePositive (tok : List Char) : Option Int :=
  match jsParseInt (tok.filter (fun c => !sepClass c)) with
  | none => none
  | some n => if 0 < n then some n else none

/-! ## The number pattern `(\d{1,3}(?:[,\s ]\d{3})*|\d+)`

Two uses appear in the source: anchored (`/^\s*(NUM)\s*$/`, strategies 1,
2 and 4) where the whole text must be the number, and searching
(label-pattern regexes) where the group is taken greedily at the first
digit after the label.  Both are implemented below with the exact
backtracking behaviour of the JavaScript engine specialised to this
pattern. -/

/-- Greedy match of the star part `(?:[,\s ]\d{3})*` when the star is
the final element of the pattern (searching use): consume `sep ddd` units
as long as they are present. -/
def starGroups : List Char → List Char
  | c :: a :: b :: d :: r =>
    if sepClass c && a.isDigit && b.isDigit && d.isDigit then
      c :: a :: b :: d :: starGroups r
    else []
  | _ => []

/-- The capture group the JavaScript engine produces for `NUM` at a
position whose first character is a digit, with nothing after the group in
the pattern: `\d{1,3}` takes at most three leading digits (greedy, no
backtracking pressure) and the star then consumes whole `sep ddd` units. -/
def greedyNumToken (l : List Char) : List Char :=
  let d1 := (l.takeWhile Char.isDigit).take 3
  d1 ++ starGroups (l.drop d1.length)

/-- Full-match test for the first alternative `\d{1,3}(?:[,\s ]\d{3})*`:
after the leading digit run (which must have length 1-3, because a digit
may not follow the run) every unit is one separator plus exactly three
digits. -/
def groupsOk : List Char → Bool
  | [] => true
  | c :: r =>
    sepClass c &&
    match r with
    | a :: b :: d :: r2 => a.isDigit && b.isDigit && d.isDigit && groupsOk r2
    | _ => false

/-- Full-match test for the first alternative of `NUM` on a whole text. -/
def tokenFullA (l : List Char) : Bool :=
  let run := l.takeWhile Char.isDigit
  decide (1 ≤ run.length) && decide (run.length ≤ 3) && groupsOk (l.drop run.length)

/-- Full-match test for the second alternative `\d+`. -/
def tokenFullB (l : List Char) : Bool :=
  !l.isEmpty && l.all Char.isDigit

/-- The anchored pattern `/^\s*(NUM)\s*$/` used by strategies 1, 2 and 4:
because the group both starts and ends with a digit, a match exists exactly
when the whitespace-trimmed core fully matches one of the two alternatives,
and the capture group is that core. -/
def anchoredNumber (s : List Char) : Option (List Char) :=
  let core := trimWs s
  if tokenFullA core || tokenFullB core then some core else none

/-! ## The label pattern `/My\s+Points[^\d]*(NUM)/i`

(and its variant `/My\s+Points\s*[^\d]*?(NUM)/i` of strategies 3 and 5,
which accepts the same texts and produces the same group: both skip from
the end of the label to the first digit).  The implementation scans for
the leftmost occurrence of the label `My` `\s+` `Points` (ASCII
case-insensitive) and then takes the greedy `NUM` group at the first digit
after it. -/

/-- Case-insensitive literal prefix; returns the remaining text. -/
def dropCI : List Char → List Char → Option (List Char)
  | [], t => some t
  | _ :: _, [] => none
  | p :: ps, c :: ts =>
    if Char.toLower p == Char.toLower c then dropCI ps ts else none

/-- Match `My` `\s+` `Points` (case-insensitively) at the head of the
text; returns the text after the label. -/
def matchLabelAt (l : List Char) : Option (List Char) :=
  match dropCI [ 'm', 'y'] l with
  | none => none
  | some r =>
    let ws := r.takeWhile jsSpace
    if ws.isEmpty then none
    else dropCI [ 'p', 'o', 'i', 'n', 't', 's'] (r.drop ws.length)

/-- Leftmost occurrence of the label; returns the text after it. -/
def findLabel : List Char → Option (List Char)
  | [] => none
  | c :: r =>
    match matchLabelAt (c :: r) with
    | some rest => some rest
    | none => findLabel r

/-- The searching label pattern: leftmost label, then the greedy `NUM`
group at the first digit after it.  Returns the capture group and the text
following the whole match (`none` when the label is absent or no digit
follows it, in which case the regex as a whole fails). -/
def labelNumMatch (l : List Char) : Option (List Char × List Char) :=
  match findLabel l with
  | none => none
  | some rest =>
    let ds := rest.dropWhile (fun c => !c.isDigit)
    if ds.isEmpty then none
    else
      let tok := greedyNumToken ds
      some (tok, ds.drop tok.length)

/-- The disqualification applied to the ~30 characters after a matched
number (rainbow.ts lines 1044-1049, 1193-1195, 1267-1269): reject when
they contain `points to rank` or `to rank` (case-insensitively). -/
def disqualifyNextTo (l : List Char) : Bool :=
  includesCI l "points to rank".data || includesCI l "to rank".data

/-! ## The Points Extraction Engine (rainbow.ts lines 1029-1299)

The `page.evaluate` callback is modelled on a page abstraction: the body
text for the fast path, and for each visible `My Points` label element the
texts its five structural strategies inspect.  Visibility filtering is
part of the abstraction: the lists contain the texts of visible nodes
only. -/

/-- Fast path (lines 1040-1056): search the body text with
`/My\s+Points[^\d]*(NUM)/i`, reject if the next 30 characters contain a
ranking phrase, otherwise strip separators, parse, and accept positive
values. -/
def fastPath (text : String) : Option Int :=
  match labelNumMatch text.data with
  | none => none
  | some (tok, rest) =>
    if disqualifyNextTo (rest.take 30) then none
    else cleanAndParsePositive tok

/-- Strategy 1 (lines 1116-1143): the next visible sibling's text must not
contain `points`, `to rank`, `referrals` or `unranked`
(case-insensitively) and must be a standalone `NUM`. -/
def strategy1 (combined : String) : Option Int :=
  if includesCI combined.data "points".data || includesCI combined.data "to rank".data ||
     includesCI combined.data "referrals".data || includesCI combined.data "unranked".data then
    none
  else
    match anchoredNumber combined.data with
    | none => none
    | some tok => cleanAndParsePositive tok

/-- Strategy 2 (lines 1145-1169): first visible child whose trimmed text
is a standalone `NUM` with a positive value. -/
def strategy2 : List String → Option Int
  | [] => none
  | t :: r =>
    match anchoredNumber t.data with
    | some tok =>
      match cleanAndParsePositive tok with
      | some n => some n
      | none => strategy2 r
    | none => strategy2 r

/-- Strategy 3 (lines 1171-1206): the parent's text, skipped entirely when
it contains a section marker (`Referrals`, `Your Rank` case-sensitively,
`to rank` case-insensitively, `Unranked` case-sensitively); otherwise the
label pattern is searched and the 30 characters after the first occurrence
of the captured token (`indexOf`, as in the source) must not contain a
ranking phrase. -/
def strategy3 (combined : String) : Option Int :=
  if includesSub combined.data "Referrals".data || includesSub combined.data "Your Rank".data ||
     includesCI combined.data "to rank".data || includesSub combined.data "Unranked".data then
    none
  else
    match labelNumMatch combined.data with
    | none => none
    | some (tok, _) =>
      match indexOfSub combined.data tok with
      | none => none
      | some i =>
        if disqualifyNextTo ((combined.data.drop (i + tok.length)).take 30) then none
        else cleanAndParsePositive tok

/-- Strategy 4 (lines 1208-1242): visible siblings of the label node;
those containing a section marker are skipped, the rest must be a
standalone `NUM` with a positive value. -/
def strategy4 : List String → Option Int
  | [] => none
  | t :: r =>
    if includesSub t.data "Referrals".data || includesSub t.data "Your Rank".data ||
       includesCI t.data "to rank".data || includesSub t.data "Unranked".data then
      strategy4 r
    else
      match anchoredNumber t.data with
      | some tok =>
        match cleanAndParsePositive tok with
        | some n => some n
        | none => strategy4 r
      | none => strategy4 r

/-- Strategy 5 core (lines 1244-1282): walk the ancestor container texts;
a container holding `Referrals`, `Your Rank` or `to rank` stops the walk
(`break`), otherwise the label pattern plus `indexOf`-based after-number
check is applied and the walk continues on failure. -/
def strategy5core : List String → Option Int
  | [] => none
  | t :: r =>
    if includesSub t.data "Referrals".data || includesSub t.data "Your Rank".data ||
       includesCI t.data "to rank".data then
      none
    else
      match labelNumMatch t.data with
      | some (tok, _) =>
        match indexOfSub t.data tok with
        | some i =>
          if disqualifyNextTo ((t.data.drop (i + tok.length)).take 30) then strategy5core r
          else
            match cleanAndParsePositive tok with
            | some n => some n
            | none => strategy5core r
        | none => strategy5core r
      | none => strategy5core r

/-- Strategy 5 walks at most four ancestor levels (`i < 4`). -/
def strategy5 (containers : List String) : Option Int :=
  strategy5core (containers.take 4)

/-- The texts the five strategies of one visible `My Points` label element
inspect. -/
structure LabelCandidate where
  sibling : Option String
  children : List String
  parent : Option String
  siblings : List String
  containers : List String
deriving DecidableEq

/-- Strategies 1-5 for one label element, each tried only when the
previous ones produced nothing (the `if (!pointsText)` chain of the
source); every produced value is positive, so the final
`points !== null && points > 0` return of the loop body is the first hit. -/
def candidatePoints (c : LabelCandidate) : Option Int :=
  match (match c.sibling with | some t => strategy1 t | none => none) with
  | some n => some n
  | none =>
    match strategy2 c.children with
    | some n => some n
    | none =>
      match (match c.parent with | some t => strategy3 t | none => none) with
      | some n => some n
      | none =>
        match strategy4 c.siblings with
        | some n => some n
        | none => strategy5 c.containers

/-- The page abstraction the extraction engine runs on. -/
structure PageModel where
  bodyText : String
  candidates : List LabelCandidate
deriving DecidableEq

/-- Loop over the label candidates (lines 1112-1287). -/
def searchCandidates : List LabelCandidate → Option Int
  | [] => none
  | c :: r =>
    match candidatePoints c with
    | some n => some n
    | none => searchCandidates r

/-- The whole extraction engine (lines 1029-1299): early `null` when the
body text does not contain `My Points` (case-sensitive `includes`), then
the fast path, then the structural strategies. -/
def extractPoints (pm : PageModel) : Option Int :=
  if !includesSub pm.bodyText.data "My Points".data then none
  else
    match fastPath pm.bodyText with
    | some n => some n
    | none => searchCandidates pm.candidates

/-! ## Positivity of every extraction result -/

/-- Every value produced by the shared parse-and-validate tail is
strictly positive. -/
theorem cleanAndParsePositive_pos (tok : List Char) (n : Int)
    (h : cleanAndParsePositive tok = some n) : 0 < n := by
  unfold cleanAndParsePositive at h
  split at h
  · exact absurd h (by simp)
  · split at h
    · rename_i m hm hpos
      cases h
      exact hpos
    · exact absurd h (by simp)

/-- Strategy 1 only returns positive values. -/
theorem strategy1_pos (t : String) (n : Int) (h : strategy1 t = some n) : 0 < n := by
  unfold strategy1 at h
  split at h
  · exact absurd h (by simp)
  · split at h
    · exact absurd h (by simp)
    · exact cleanAndParsePositive_pos _ n h

/-- Strategy 2 only returns positive values. -/
theorem strategy2_pos (ts : List String) (n : Int) (h : strategy2 ts = some n) : 0 < n := by
  induction ts with
  | nil => exact absurd h (by simp [strategy2])
  | cons t r ih =>
    unfold strategy2 at h
    split at h
    · split at h
      · rename_i hc
        cases h
        exact cleanAndParsePositive_pos _ n hc
      · exact ih h
    · exact ih h

/-- Strategy 3 only returns positive values. -/
theorem strategy3_pos (t : String) (n : Int) (h : strategy3 t = some n) : 0 < n := by
  unfold strategy3 at h
  split at h
  · exact absurd h (by simp)
  · split at h
    · exact absurd h (by simp)
    · split at h
      · exact absurd h (by simp)
      · split at h
        · exact absurd h (by simp)
        · exact cleanAndParsePositive_pos _ n h

/-- Strategy 4 only returns positive values. -/
theorem strategy4_pos (ts : List String) (n : Int) (h : strategy4 ts = some n) : 0 < n := by
  induction ts with
  | nil => exact absurd h (by simp [strategy4])
  | cons t r ih =>
    unfold strategy4 at h
    split at h
    · exact ih h
    · split at h
      · split at h
        · rename_i hc
          cases h
          exact cleanAndParsePositive_pos _ n hc
        · exact ih h
      · exact ih h

/-- The strategy 5 walk only returns positive values. -/
theorem strategy5core_pos (ts : List String) (n : Int)
    (h : strategy5core ts = some n) : 0 < n := by
  induction ts with
  | nil => exact absurd h (by simp [strategy5core])
  | cons t r ih =>
    unfold strategy5core at h
    split at h
    · exact absurd h (by simp)
    · split at h
      · split at h
        · split at h
          · exact ih h
          · split at h
            · rename_i hc
              cases h
              exact cleanAndParsePositive_pos _ n hc
            · exact ih h
        · exact ih h
      · exact ih h

/-- The fast path only returns positive values. -/
theorem fastPath_pos (t : String) (n : Int) (h : fastPath t = some n) : 0 < n := by
  unfold fastPath at h
  split at h
  · exact absurd h (by simp)
  · split at h
    · exact absurd h (by simp)
    · exact cleanAndParsePositive_pos _ n h

/-- One candidate only yields positive values. -/
theorem candidatePoints_pos (c : LabelCandidate) (n : Int)
    (h : candidatePoints c = some n) : 0 < n := by
  unfold candidatePoints at h
  split at h
  · rename_i h1
    cases h
    split at h1
    · exact strategy1_pos _ n h1
    · exact absurd h1 (by simp)
  · split at h
    · rename_i h2
      cases h
      exact strategy2_pos _ n h2
    · split at h
      · rename_i h3
        cases h
        split at h3
        · exact strategy3_pos _ n h3
        · exact absurd h3 (by simp)
      · split at h
        · rename_i h4
          cases h
          exact strategy4_pos _ n h4
        · exact strategy5core_pos _ n h

/-- The candidate loop only yields positive values. -/
theorem searchCandidates_pos (cs : List LabelCandidate) (n : Int)
    (h : searchCandidates cs = some n) : 0 < n := by
  induction cs with
  | nil => exact absurd h (by simp [searchCandidates])
  | cons c r ih =>
    unfold searchCandidates at h
    split at h
    · rename_i hc
      cases h
      exact candidatePoints_pos _ n hc
    · exact ih h

/-- The engine as a whole only yields positive values. -/
theorem extractPoints_pos (pm : PageModel) (n : Int)
    (h : extractPoints pm = some n) : 0 < n := by
  unfold extractPoints at h
  split at h
  · exact absurd h (by simp)
  · split at h
    · rename_i hf
      cases h
      exact fastPath_pos _ n hf
    · exact searchCandidates_pos _ n h

/-! ## Claims C5, C6, C7 -/

/-- The ranking-progress sentence of claim C5. -/
def rankText : String := "My Points 750 points to rank #1,200"

/-- A page on which the ranking sentence is the only text any strategy
sees: body text, next sibling, child, parent, other siblings and all four
ancestor containers. -/
def rankPage : PageModel :=
  ⟨rankText, [⟨some rankText, [rankText], some rankText, [rankText],
    [rankText, rankText, rankText, rankText]⟩]⟩

/-- Claim C5: for the page text `My Points 750 points to rank #1,200` the
Points Extraction Engine never returns 750 — the fast path and each of the
five structural strategies reject the candidate because the number is
followed by (or sits in a text containing) the disqualifying phrase
`to rank`, and the whole engine returns null. -/
theorem c5_rank_sentence_never_extracted :
    fastPath rankText = none ∧
    strategy1 rankText = none ∧
    strategy2 [rankText] = none ∧
    strategy3 rankText = none ∧
    strategy4 [rankText] = none ∧
    strategy5 [rankText, rankText, rankText, rankText] = none ∧
    extractPoints rankPage = none := by
  decide

/-- Claim C6: on every page the Points Extraction Engine returns either
null or a strictly positive integer — never `0` (and never a negative
number); in particular a sibling node whose text is `0` yields null, both
for the sibling strategy alone and for the whole engine. -/
theorem c6_extraction_positive_or_none :
    (∀ pm : PageModel, extractPoints pm = none ∨
      ∃ n, extractPoints pm = some n ∧ 0 < n) ∧
    strategy1 "0" = none ∧
    extractPoints ⟨"My Points", [⟨some "0", [], none, [], []⟩]⟩ = none := by
  refine ⟨?_, by decide, by decide⟩
  intro pm
  cases hx : extractPoints pm with
  | none => exact Or.inl rfl
  | some n => exact Or.inr ⟨n, rfl, extractPoints_pos pm n hx⟩

/-- Claim C7: a visible next sibling whose whole text is the standalone
thousands-grouped number `12,345` yields the integer 12345; comma, space
and no-break-space group separators are stripped before parsing. -/
theorem c7_sibling_thousands_grouped_extracted :
    strategy1 "12,345" = some 12345 ∧
    strategy1 "12 345" = some 12345 ∧
    strategy1 "12 345" = some 12345 ∧
    extractPoints ⟨"My Points", [⟨some "12,345", [], none, [], []⟩]⟩ = some 12345 := by
  decide

/-! ## The Result Store (src/database.ts)

The SQLite table keyed by `address` is modelled as a function from
addresses to records; `saveWalletData` (lines 92-117) is an upsert, i.e.
a record replacement at one key.  Timestamps and the autoincrement id are
not modelled. -/

/-- The `status` column values (database.ts line 13). -/
inductive Status
  | success
  | error
  | empty_balance
  | pending
deriving DecidableEq

/-- One row of the `wallets` table (the fields the logic reads). -/
structure WalletRecord where
  points : Option Int
  status : Status
  errorMessage : Option String
deriving DecidableEq

/-- The store contents: `address → row`. -/
def Db : Type := String → Option WalletRecord

/-- `getWalletByAddress` (database.ts lines 62-75): the row at the
address. -/
def getWalletByAddress (db : Db) (address : String) : Option WalletRecord :=
  db address

/-- `shouldSkipWallet` (database.ts lines 80-87): skip only wallets whose
row has `status === 'success' && points !== null && points > 0`. -/
def shouldSkipWallet (db : Db) (address : String) : Bool :=
  match getWalletByAddress db address with
  | none => false
  | some w =>
    decide (w.status = Status.success) &&
    match w.points with
    | some p => decide (0 < p)
    | none => false

/-- One call of `saveWalletData` (database.ts lines 92-117), recorded as
a write event. -/
structure DbWrite where
  address : String
  points : Option Int
  status : Status
  errorMessage : Option String
deriving DecidableEq

/-- Build the write event of a `saveWalletData(address, points, status,
errorMessage)` call; the source passes `errorMessage || null`. -/
def saveWalletData (address : String) (points : Option Int) (status : Status)
    (errorMessage : Option String) : DbWrite :=
  ⟨address, points, status, errorMessage⟩

/-- Apply one upsert to the store (the `INSERT ... ON CONFLICT(address)
DO UPDATE` statement). -/
def applyWrite (db : Db) (w : DbWrite) : Db :=
  fun a => if a = w.address then some ⟨w.points, w.status, w.errorMessage⟩ else db a

/-- Apply a list of upserts in order (last write wins). -/
def applyWrites (db : Db) (ws : List DbWrite) : Db :=
  ws.foldl applyWrite db

/-! ## Exceptions and external step outcomes -/

/-- Result of one awaited external step: normal completion or a thrown
exception carrying its message. -/
inductive Step (α : Type)
  | ok (val : α)
  | err (msg : String)
deriving DecidableEq

/-- How a `processWallet` run ends at its caller: a returned boolean or a
propagated exception. -/
inductive RunOutcome
  | ret (val : Bool)
  | thrown (msg : String)
deriving DecidableEq

/-- Observable effects of one `processWallet` run: the `saveWalletData`
calls it makes, how many times it attempts `context.close()`, how many
times it calls `cleanupTempProfile`, and how it ends. -/
structure RunResult where
  writes : List DbWrite
  closes : Nat
  cleanups : Nat
  outcome : RunOutcome
deriving DecidableEq

/-- The message of the distinguished empty-balance signal thrown at
rainbow.ts line 1641. -/
def emptyBalanceMsg : String := "Кошелек не подходит: баланс пуст"

/-- The substring every empty-balance handler tests with
`error.message.includes(..)` (lines 1015, 1850, 1955). -/
def hasEmptyBalanceMark (m : String) : Bool :=
  includesSub m.data "баланс пуст".data

/-! ## The referral sub-flow (`enterReferralCode`, rainbow.ts 1310-1855)

The UI interactions are abstracted into an environment fixing what the
page showed: whether a code input was found and filled, whether a
`Sign In` control was clicked, whether the `Fund My Wallet` affordance
became visible, the parsed `Points Earned:` value (already validated
positive by lines 1661-1668, `none` when absent or the wait timed out —
those exceptions are swallowed by the inner catch at line 1841), and
whether a `Done` control was clicked. -/
structure RefEnv where
  inputFound : Bool
  signInFound : Bool
  fundWalletFound : Bool
  pointsEarned : Option Int
  doneFound : Bool
deriving DecidableEq

/-- `enterReferralCode`: returns the points earned after `Done`, `null`
otherwise; throws the empty-balance signal when the fund-wallet affordance
is visible (line 1641).  Its outer catch (lines 1848-1854) re-throws only
messages containing the empty-balance mark and maps every other exception
to `null`. -/
def enterReferralCode (e : RefEnv) : Step (Option Int) :=
  match
    (if !e.inputFound then Step.ok none
     else if e.signInFound then
       if e.fundWalletFound then Step.err emptyBalanceMsg
       else if e.doneFound && e.pointsEarned.isSome then Step.ok e.pointsEarned
       else Step.ok none
     else Step.ok none : Step (Option Int))
  with
  | .ok v => .ok v
  | .err m => if hasEmptyBalanceMark m then .err m else .ok none

/-- Environment of one `checkPointsOrUseReferralCode` call: whether the
`Use Referral Code` affordance was visible, the referral sub-flow
environment used when it was, and the page the extraction engine runs on
when it was not. -/
structure CheckEnv where
  referralButtonFound : Bool
  ref : RefEnv
  page : PageModel
deriving DecidableEq

/-- `checkPointsOrUseReferralCode` (rainbow.ts 901-1303).  When the
referral affordance is visible the sub-flow runs; its catch at lines
1013-1019 re-throws the empty-balance signal and swallows other errors.
Otherwise the extraction engine runs (its `page.evaluate` try/catch at
lines 1291-1293 already yields `null` on failure).  The function's own
outer catch at lines 1300-1302 turns EVERY escaping exception — including
the re-thrown empty-balance signal — into a `null` return, so the
function never throws. -/
def checkPointsOrUseReferralCode (c : CheckEnv) : Option Int :=
  match
    (if c.referralButtonFound then
       match enterReferralCode c.ref with
       | .ok (some n) => Step.ok (some n)
       | .ok none => Step.ok none
       | .err m => if hasEmptyBalanceMark m then Step.err m else Step.ok none
     else Step.ok (extractPoints c.page) : Step (Option Int))
  with
  | .ok v => v
  | .err _ => none

/-! ## The per-wallet orchestrator (`processWallet`, rainbow.ts 1863-2030) -/

/-- Environment of one wallet run: the outcome of each awaited pipeline
step.  `findExtensionId` yields the extension id or `none` (line 1892
turns `none` into a throw); the other setup steps either complete or
throw.  `closeFails` records whether `context.close()` itself throws —
every close is wrapped in its own try/catch, so this flag affects nothing
else. -/
structure WalletEnv where
  launch : Step Unit
  findExtensionId : Step (Option String)
  openWallet : Step Unit
  clickImportOrConnect : Step Unit
  clickImportSecret : Step Unit
  clickImportFromKey : Step Unit
  enterKeyAndImport : Step Unit
  enterPasswordAndSet : Step Unit
  gotoMain : Step Unit
  check : CheckEnv
  closeFails : Bool
deriving DecidableEq

/-- Sequence steps, stopping at the first thrown exception. -/
def seqSteps : List (Step Unit) → Step Unit
  | [] => .ok ()
  | .ok _ :: r => seqSteps r
  | .err m :: _ => .err m

/-- The setup part of the pipeline (rainbow.ts 1891-1912): everything
between a successful launch and the navigation at line 1917. -/
def setupSteps (env : WalletEnv) : Step Unit :=
  match env.findExtensionId with
  | .err m => .err m
  | .ok none => .err "Не удалось найти расширение Rainbow Wallet"
  | .ok (some _) =>
    seqSteps [env.openWallet, env.clickImportOrConnect, env.clickImportSecret,
      env.clickImportFromKey, env.enterKeyAndImport, env.enterPasswordAndSet]

/-- The part of `processWallet` that handles the result of
`checkPointsOrUseReferralCode` (rainbow.ts 1925-2003), written over an
arbitrary `Step` result so the dead empty-balance handler is visible:
points found → success write, close, cleanup, `return true` (1927-1951);
`null` → no write, close, cleanup, `return true` (1989-2003); a thrown
empty-balance signal → empty-balance write with points 0, close, cleanup,
`return false` (1953-1981); any other exception is re-thrown at 1983 and
immediately swallowed by the bare catch at 1985, after which close,
cleanup and `return true` follow. -/
def innerAfterGoto (address : String) (checkResult : Step (Option Int)) : RunResult :=
  match checkResult with
  | .ok (some n) => ⟨[saveWalletData address (some n) Status.success none], 1, 1, .ret true⟩
  | .ok none => ⟨[], 1, 1, .ret true⟩
  | .err m =>
    if hasEmptyBalanceMark m then
      ⟨[saveWalletData address (some 0) Status.empty_balance (some "Баланс пуст")], 1, 1,
        .ret false⟩
    else ⟨[], 1, 1, .ret true⟩

/-- `processWallet` (rainbow.ts 1863-2030).  A launch failure leaves
`context` and `tempProfile` null, so the outer catch performs no close and
no cleanup before re-throwing (1877-1888, 2004-2029).  A setup failure is
written as an error, closed, cleaned up, and re-thrown (2004-2029).  A
navigation failure is swallowed by the catch at 1985.  The
`checkPointsOrUseReferralCode` result is always a normal return (it never
throws), fed into the handler above. -/
def processWallet (address : String) (env : WalletEnv) : RunResult :=
  match env.launch with
  | .err m => ⟨[saveWalletData address none Status.error (some m)], 0, 0, .thrown m⟩
  | .ok _ =>
    match setupSteps env with
    | .err m => ⟨[saveWalletData address none Status.error (some m)], 1, 1, .thrown m⟩
    | .ok _ =>
      match env.gotoMain with
      | .err _ => ⟨[], 1, 1, .ret true⟩
      | .ok _ => innerAfterGoto address (.ok (checkPointsOrUseReferralCode env.check))

/-! ## Address derivation (rainbow.ts 23-31) -/

/-- The pattern `^0x[a-fA-F0-9]{64}$` on a character list. -/
def hex66 (l : List Char) : Bool :=
  match l with
  | '0' :: 'x' :: rest => decide (rest.length = 64) && rest.all isHexDigit
  | _ => false

/-- The pattern `^[a-fA-F0-9]{64}$` on a character list. -/
def hex64 (l : List Char) : Bool :=
  decide (l.length = 64) && l.all isHexDigit

/-- Modelled from the spec: `privateKeyToAccount` comes from the external
`viem` library, whose code is not part of this repository.  The spec
describes the derivation as a pure, deterministic function from a valid
key to a canonical lower-case-normalized address string, throwing on
invalid keys; the stand-in below maps a well-formed key to the
lower-casing of the key string itself and throws otherwise. -/
def privateKeyToAccount (privateKey : String) : Step String :=
  if hex66 privateKey.data then .ok (String.mk (lowerList privateKey.data))
  else .err "invalid private key"

/-- The sentinel returned when derivation throws (rainbow.ts line 29). -/
def zeroAddress : String := "0x0000000000000000000000000000000000000000"

/-- `getAddressFromPrivateKey` (rainbow.ts 23-31): the derived address,
or the all-zero sentinel when derivation throws. -/
def getAddressFromPrivateKey (privateKey : String) : String :=
  match privateKeyToAccount privateKey with
  | .ok a => a
  | .err _ => zeroAddress

/-! ## The batch loop (`importWallet`, rainbow.ts 2036-2122) -/

/-- One key together with the environment its wallet run will meet. -/
structure KeyRun where
  key : String
  env : WalletEnv

/-- Observable state of the batch loop: the store, the global write log,
the addresses for which `processWallet` was invoked, and the three
counters of lines 2074-2076. -/
structure BatchState where
  db : Db
  writes : List DbWrite
  invoked : List String
  successCount : Nat
  errorCount : Nat
  skippedCount : Nat

/-- One iteration of the key loop (rainbow.ts 2079-2112): skip-check via
`shouldSkipWallet` (2085-2089), then `processWallet`; a returned `true`
bumps `successCount`; a thrown exception is caught at 2096-2106, written
to the store once more as an error, and bumps `errorCount`. -/
def batchStep (st : BatchState) (kr : KeyRun) : BatchState :=
  if shouldSkipWallet st.db (getAddressFromPrivateKey kr.key) then
    { st with skippedCount := st.skippedCount + 1 }
  else
    match processWallet (getAddressFromPrivateKey kr.key) kr.env with
    | ⟨ws, _, _, RunOutcome.ret b⟩ =>
      { db := applyWrites st.db ws
        writes := st.writes ++ ws
        invoked := st.invoked ++ [getAddressFromPrivateKey kr.key]
        successCount := if b then st.successCount + 1 else st.successCount
        errorCount := st.errorCount
        skippedCount := st.skippedCount }
    | ⟨ws, _, _, RunOutcome.thrown m⟩ =>
      { db := applyWrite (applyWrites st.db ws)
          (saveWalletData (getAddressFromPrivateKey kr.key) none Status.error (some m))
        writes := st.writes ++ ws ++
          [saveWalletData (getAddressFromPrivateKey kr.key) none Status.error (some m)]
        invoked := st.invoked ++ [getAddressFromPrivateKey kr.key]
        successCount := st.successCount
        errorCount := st.errorCount + 1
        skippedCount := st.skippedCount }

/-- The whole key loop of the importWallet entry point. -/
def runBatch (keys : List KeyRun) (st : BatchState) : BatchState :=
  keys.foldl batchStep st

/-! ## Shape lemmas for `processWallet` -/

/-- The inner handler closes the context and removes the profile exactly
once on each of its branches. -/
theorem innerAfterGoto_counts (address : String) (cr : Step (Option Int)) :
    (innerAfterGoto address cr).closes = 1 ∧ (innerAfterGoto address cr).cleanups = 1 := by
  unfold innerAfterGoto
  rcases cr with v | m
  · cases v <;> exact ⟨rfl, rfl⟩
  · by_cases hm : hasEmptyBalanceMark m = true
    · simp [hm]
    · simp [hm]

/-- The inner handler always returns (never re-throws to the caller). -/
theorem innerAfterGoto_returns (address : String) (cr : Step (Option Int)) :
    ∃ b, (innerAfterGoto address cr).outcome = RunOutcome.ret b := by
  unfold innerAfterGoto
  rcases cr with v | m
  · cases v
    · exact ⟨true, rfl⟩
    · exact ⟨true, rfl⟩
  · by_cases hm : hasEmptyBalanceMark m = true
    · exact ⟨false, by simp [hm]⟩
    · exact ⟨true, by simp [hm]⟩

/-- The writes of the inner handler: none, one success write, or one
empty-balance write. -/
theorem innerAfterGoto_writes (address : String) (cr : Step (Option Int)) :
    (innerAfterGoto address cr).writes = [] ∨
    (∃ n, (innerAfterGoto address cr).writes =
      [saveWalletData address (some n) Status.success none]) ∨
    (innerAfterGoto address cr).writes =
      [saveWalletData address (some 0) Status.empty_balance (some "Баланс пуст")] := by
  unfold innerAfterGoto
  rcases cr with v | m
  · cases v
    · exact Or.inl rfl
    · rename_i n
      exact Or.inr (Or.inl ⟨n, rfl⟩)
  · by_cases hm : hasEmptyBalanceMark m = true
    · exact Or.inr (Or.inr (by simp [hm]))
    · exact Or.inl (by simp [hm])

/-- A run that ends in a propagated exception has written exactly one
error record, carrying the exception's message. -/
theorem processWallet_thrown_writes (address : String) (env : WalletEnv) (m : String)
    (h : (processWallet address env).outcome = RunOutcome.thrown m) :
    (processWallet address env).writes = [saveWalletData address none Status.error (some m)] := by
  rcases hl : env.launch with u | m2
  · rcases hs : setupSteps env with u2 | m3
    · rcases hg : env.gotoMain with u3 | m4
      · simp only [processWallet, hl, hs, hg] at h
        obtain ⟨b, hb⟩ := innerAfterGoto_returns address
          (.ok (checkPointsOrUseReferralCode env.check))
        rw [hb] at h
        cases h
      · simp only [processWallet, hl, hs, hg] at h
        cases h
    · simp only [processWallet, hl, hs] at h ⊢
      simp only [RunOutcome.thrown.injEq] at h
      rw [h]
  · simp only [processWallet, hl] at h ⊢
    simp only [RunOutcome.thrown.injEq] at h
    rw [h]

/-- A run that returns normally has written nothing, one success record,
or one empty-balance record. -/
theorem processWallet_ret_writes (address : String) (env : WalletEnv) (b : Bool)
    (h : (processWallet address env).outcome = RunOutcome.ret b) :
    (processWallet address env).writes = [] ∨
    (∃ n, (processWallet address env).writes =
      [saveWalletData address (some n) Status.success none]) ∨
    (processWallet address env).writes =
      [saveWalletData address (some 0) Status.empty_balance (some "Баланс пуст")] := by
  rcases hl : env.launch with u | m2
  · rcases hs : setupSteps env with u2 | m3
    · rcases hg : env.gotoMain with u3 | m4
      · simp only [processWallet, hl, hs, hg]
        exact innerAfterGoto_writes address _
      · exact Or.inl (by simp only [processWallet, hl, hs, hg])
    · simp only [processWallet, hl, hs] at h
      cases h
  · simp only [processWallet, hl] at h
    cases h

/-! ## Lemmas about one batch iteration -/

/-- A non-skipped key whose run throws: the batch iteration appends the
run's writes plus one more error upsert, bumps the error counter, records
the error row as the final store state, and still invokes the wallet. -/
theorem batchStep_thrown (st : BatchState) (kr : KeyRun) (m : String)
    (hskip : shouldSkipWallet st.db (getAddressFromPrivateKey kr.key) = false)
    (h : (processWallet (getAddressFromPrivateKey kr.key) kr.env).outcome =
      RunOutcome.thrown m) :
    (batchStep st kr).writes = st.writes ++
      (processWallet (getAddressFromPrivateKey kr.key) kr.env).writes ++
      [saveWalletData (getAddressFromPrivateKey kr.key) none Status.error (some m)] ∧
    (batchStep st kr).errorCount = st.errorCount + 1 ∧
    (batchStep st kr).db (getAddressFromPrivateKey kr.key) =
      some ⟨none, Status.error, some m⟩ ∧
    (batchStep st kr).invoked = st.invoked ++ [getAddressFromPrivateKey kr.key] := by
  have hns : ¬ (shouldSkipWallet st.db (getAddressFromPrivateKey kr.key) = true) := by
    simp [hskip]
  unfold batchStep
  rw [if_neg hns]
  rcases hr : processWallet (getAddressFromPrivateKey kr.key) kr.env with ⟨ws, cl, cu, oc⟩
  cases oc with
  | ret b => exact absurd h (by simp [hr])
  | thrown m2 =>
    have hm : m2 = m := by
      have := h
      rw [hr] at this
      simpa using this
    subst hm
    refine ⟨rfl, rfl, ?_, rfl⟩
    simp [applyWrite, saveWalletData]

/-- A non-skipped key whose run returns: the batch iteration appends
exactly the run's writes, leaves the error counter unchanged, and invokes
the wallet. -/
theorem batchStep_ret (st : BatchState) (kr : KeyRun) (b : Bool)
    (hskip : shouldSkipWallet st.db (getAddressFromPrivateKey kr.key) = false)
    (h : (processWallet (getAddressFromPrivateKey kr.key) kr.env).outcome =
      RunOutcome.ret b) :
    (batchStep st kr).writes = st.writes ++
      (processWallet (getAddressFromPrivateKey kr.key) kr.env).writes ∧
    (batchStep st kr).errorCount = st.errorCount ∧
    (batchStep st kr).invoked = st.invoked ++ [getAddressFromPrivateKey kr.key] := by
  have hns : ¬ (shouldSkipWallet st.db (getAddressFromPrivateKey kr.key) = true) := by
    simp [hskip]
  unfold batchStep
  rw [if_neg hns]
  rcases hr : processWallet (getAddressFromPrivateKey kr.key) kr.env with ⟨ws, cl, cu, oc⟩
  cases oc with
  | thrown m2 => exact absurd h (by simp [hr])
  | ret b2 => exact ⟨rfl, rfl, rfl⟩

/-! ## Concrete runs used as counterexamples and witnesses -/

/-- A run in which every step succeeds but the Rainbow extension is never
found: line 1893 of rainbow.ts then throws, which propagates out of
`processWallet`. -/
def noExtensionEnv : WalletEnv :=
  ⟨.ok (), .ok none, .ok (), .ok (), .ok (), .ok (), .ok (), .ok (), .ok (),
   ⟨false, ⟨false, false, false, none, false⟩, ⟨"", []⟩⟩, false⟩

/-- Batch state before any key was processed: empty store, empty log,
zero counters. -/
def initialBatchState : BatchState :=
  ⟨fun _ => none, [], [], 0, 0, 0⟩

/-! ## Claim C1 -/

/-- Counterexample to claim C1: a run in which the extension is not found
throws; `processWallet` writes its error record (rainbow.ts 2010) and
re-throws, and the batch loop's catch writes the same record again
(rainbow.ts 2101) — the Result Store receives two upserts for the wallet's
address in that run, not one. -/
theorem c1_counterexample_error_outcome_writes_twice :
    ((runBatch [⟨"k", noExtensionEnv⟩] initialBatchState).writes.filter
      (fun w => w.address == zeroAddress)).length = 2 ∧
    ¬ ((runBatch [⟨"k", noExtensionEnv⟩] initialBatchState).writes.filter
      (fun w => w.address == zeroAddress)).length = 1 ∧
    (processWallet zeroAddress noExtensionEnv).outcome =
      RunOutcome.thrown "Не удалось найти расширение Rainbow Wallet" := by
  decide

/-- Claim C1 as amended: for a non-skipped key, a run that ends in a
propagated exception produces exactly two upserts for the wallet's address
(the orchestrator's error write plus the batch runner's identical error
write), while a run that returns normally produces at most one upsert —
exactly one success or empty-balance write, or none at all (the benign
not-found completion). -/
theorem c1_amended_write_counts (st : BatchState) (kr : KeyRun)
    (hskip : shouldSkipWallet st.db (getAddressFromPrivateKey kr.key) = false) :
    (∀ m, (processWallet (getAddressFromPrivateKey kr.key) kr.env).outcome =
        RunOutcome.thrown m →
      (processWallet (getAddressFromPrivateKey kr.key) kr.env).writes =
        [saveWalletData (getAddressFromPrivateKey kr.key) none Status.error (some m)] ∧
      (batchStep st kr).writes = st.writes ++
        [saveWalletData (getAddressFromPrivateKey kr.key) none Status.error (some m),
         saveWalletData (getAddressFromPrivateKey kr.key) none Status.error (some m)]) ∧
    (∀ b, (processWallet (getAddressFromPrivateKey kr.key) kr.env).outcome =
        RunOutcome.ret b →
      (batchStep st kr).writes = st.writes ++
        (processWallet (getAddressFromPrivateKey kr.key) kr.env).writes ∧
      ((processWallet (getAddressFromPrivateKey kr.key) kr.env).writes = [] ∨
       (∃ n, (processWallet (getAddressFromPrivateKey kr.key) kr.env).writes =
         [saveWalletData (getAddressFromPrivateKey kr.key) (some n) Status.success none]) ∨
       (processWallet (getAddressFromPrivateKey kr.key) kr.env).writes =
         [saveWalletData (getAddressFromPrivateKey kr.key) (some 0) Status.empty_balance
           (some "Баланс пуст")])) := by
  constructor
  · intro m hm
    have hw := processWallet_thrown_writes (getAddressFromPrivateKey kr.key) kr.env m hm
    have hb := (batchStep_thrown st kr m hskip hm).1
    rw [hw] at hb
    rw [hb]
    exact ⟨hw, by simp⟩
  · intro b hb
    have hs := (batchStep_ret st kr b hskip hb).1
    exact ⟨hs, processWallet_ret_writes (getAddressFromPrivateKey kr.key) kr.env b hb⟩

/-- Witness for the amended claim C1 at the concrete no-extension run. -/
theorem c1_amended_write_counts_witness :
    (processWallet (getAddressFromPrivateKey "k") noExtensionEnv).writes =
      [saveWalletData (getAddressFromPrivateKey "k") none Status.error
        (some "Не удалось найти расширение Rainbow Wallet")] ∧
    (batchStep initialBatchState ⟨"k", noExtensionEnv⟩).writes =
      initialBatchState.writes ++
      [saveWalletData (getAddressFromPrivateKey "k") none Status.error
        (some "Не удалось найти расширение Rainbow Wallet"),
       saveWalletData (getAddressFromPrivateKey "k") none Status.error
        (some "Не удалось найти расширение Rainbow Wallet")] :=
  (c1_amended_write_counts initialBatchState ⟨"k", noExtensionEnv⟩ (by decide)).1
    "Не удалось найти расширение Rainbow Wallet" (by decide)

/-! ## Claim C3 -/

/-- Claim C3: a run whose pipeline throws an exception that is not
recovered inside `processWallet` ends as a recorded error — the store's
final row for the address is `status = error` with the exception's
message, the error upsert is among the writes, the batch runner's error
counter is incremented, and the loop goes on to the remaining keys (the
`runBatch` unfolding equation) instead of halting. -/
theorem c3_unrecovered_error_recorded_and_batch_continues
    (st : BatchState) (kr : KeyRun) (m : String)
    (hskip : shouldSkipWallet st.db (getAddressFromPrivateKey kr.key) = false)
    (h : (processWallet (getAddressFromPrivateKey kr.key) kr.env).outcome =
      RunOutcome.thrown m) :
    saveWalletData (getAddressFromPrivateKey kr.key) none Status.error (some m) ∈
      (batchStep st kr).writes ∧
    (batchStep st kr).db (getAddressFromPrivateKey kr.key) =
      some ⟨none, Status.error, some m⟩ ∧
    (batchStep st kr).errorCount = st.errorCount + 1 ∧
    (∀ rest : List KeyRun, runBatch (kr :: rest) st = runBatch rest (batchStep st kr)) := by
  obtain ⟨hw, he, hdb, _⟩ := batchStep_thrown st kr m hskip h
  refine ⟨?_, hdb, he, fun rest => rfl⟩
  rw [hw]
  simp

/-- Witness for claim C3 at the concrete no-extension run. -/
theorem c3_witness :
    (batchStep initialBatchState ⟨"k", noExtensionEnv⟩).errorCount = 1 :=
  (c3_unrecovered_error_recorded_and_batch_continues initialBatchState
    ⟨"k", noExtensionEnv⟩ "Не удалось найти расширение Rainbow Wallet"
    (by decide) (by decide)).2.2.1

/-! ## Claim C4 -/

/-- A referral sub-flow in which the `Fund My Wallet` affordance becomes
visible after `Sign In`. -/
def fundWalletRef : RefEnv := ⟨true, true, true, none, false⟩

/-- The corresponding `checkPointsOrUseReferralCode` environment: the
`Use Referral Code` affordance was visible, so the sub-flow ran. -/
def fundWalletCheck : CheckEnv := ⟨true, fundWalletRef, ⟨"", []⟩⟩

/-- A wallet run in which every step succeeds until the referral sub-flow
detects the fund-wallet affordance. -/
def fundWalletEnv : WalletEnv :=
  ⟨.ok (), .ok (some "ext"), .ok (), .ok (), .ok (), .ok (), .ok (), .ok (), .ok (),
   fundWalletCheck, false⟩

/-- Claim C4 is right about the intent and wrong about the code: the
sub-flow raises the empty-balance signal (first conjunct) and
`processWallet` contains a handler that would write
`status = empty_balance, points = 0` for it (fourth conjunct, the
would-be behaviour of lines 1953-1981), but `checkPointsOrUseReferralCode`
swallows the re-thrown signal in its own catch-all at rainbow.ts lines
1300-1302 and returns `null` (second conjunct), so the run performs NO
write at all and completes as if successful (third conjunct). -/
theorem c4_fund_wallet_signal_swallowed_no_write :
    enterReferralCode fundWalletRef = Step.err emptyBalanceMsg ∧
    checkPointsOrUseReferralCode fundWalletCheck = none ∧
    processWallet zeroAddress fundWalletEnv =
      ⟨[], 1, 1, RunOutcome.ret true⟩ ∧
    innerAfterGoto zeroAddress (Step.err emptyBalanceMsg) =
      ⟨[saveWalletData zeroAddress (some 0) Status.empty_balance (some "Баланс пуст")],
        1, 1, RunOutcome.ret false⟩ := by
  decide

/-! ## Claim C8 -/

/-- Claim C8: `shouldSkipWallet` is true exactly when the stored row has
`status = success` and strictly positive points (so it is false for a
missing row and for every other status/points combination), and a skipped
address is never handed to `processWallet`: the batch iteration leaves the
invoked list and the write log unchanged and only bumps the skip
counter. -/
theorem c8_should_skip_iff_success_positive (st : BatchState) (kr : KeyRun) :
    (shouldSkipWallet st.db (getAddressFromPrivateKey kr.key) = true ↔
      ∃ rec, st.db (getAddressFromPrivateKey kr.key) = some rec ∧
        rec.status = Status.success ∧ ∃ p, rec.points = some p ∧ 0 < p) ∧
    (shouldSkipWallet st.db (getAddressFromPrivateKey kr.key) = true →
      (batchStep st kr).invoked = st.invoked ∧
      (batchStep st kr).writes = st.writes ∧
      (batchStep st kr).skippedCount = st.skippedCount + 1) := by
  constructor
  · constructor
    · intro h
      unfold shouldSkipWallet getWalletByAddress at h
      cases hdb : st.db (getAddressFromPrivateKey kr.key) with
      | none => rw [hdb] at h; cases h
      | some w =>
        rw [hdb] at h
        simp only [Bool.and_eq_true, decide_eq_true_eq] at h
        obtain ⟨h1, h2⟩ := h
        refine ⟨w, rfl, h1, ?_⟩
        cases hp : w.points with
        | none => rw [hp] at h2; cases h2
        | some p =>
          rw [hp] at h2
          exact ⟨p, rfl, by simpa using h2⟩
    · rintro ⟨rec, hrec, hst, p, hp, hpos⟩
      unfold shouldSkipWallet getWalletByAddress
      simp [hrec, hst, hp, hpos]
  · intro h
    unfold batchStep
    rw [if_pos h]
    exact ⟨rfl, rfl, rfl⟩

/-- A store already holding a successful record with positive points for
the sentinel address. -/
def skipDb : Db :=
  fun a => if a = zeroAddress then some ⟨some 5, Status.success, none⟩ else none

/-- Batch state over that store. -/
def skipState : BatchState := ⟨skipDb, [], [], 0, 0, 0⟩

/-- Witness for claim C8: the already-successful wallet is skipped
without invoking the pipeline. -/
theorem c8_witness :
    (batchStep skipState ⟨"k", noExtensionEnv⟩).invoked = skipState.invoked ∧
    (batchStep skipState ⟨"k", noExtensionEnv⟩).writes = skipState.writes ∧
    (batchStep skipState ⟨"k", noExtensionEnv⟩).skippedCount = skipState.skippedCount + 1 :=
  (c8_should_skip_iff_success_positive skipState ⟨"k", noExtensionEnv⟩).2 (by decide)

/-! ## Claim C9 -/

/-- Claim C9: every run that provisions a browser session — i.e. whose
launch step completes — attempts `context.close()` exactly once and calls
`cleanupTempProfile` exactly once, on every exit path: successful return,
empty-balance return, benign not-found return, and exception re-throw;
the close's own success or failure (`closeFails`) is immaterial because
each close is wrapped in its own try/catch. -/
theorem c9_cleanup_exactly_once (address : String) (env : WalletEnv)
    (h : env.launch = Step.ok ()) :
    (processWallet address env).closes = 1 ∧ (processWallet address env).cleanups = 1 := by
  rcases hs : setupSteps env with u | m
  · rcases hg : env.gotoMain with u2 | m2
    · simp only [processWallet, h, hs, hg]
      exact innerAfterGoto_counts address _
    · simp [processWallet, h, hs, hg]
  · simp [processWallet, h, hs]

/-- A complete run whose `context.close()` itself fails. -/
def closeFailEnv : WalletEnv :=
  ⟨.ok (), .ok (some "ext"), .ok (), .ok (), .ok (), .ok (), .ok (), .ok (), .ok (),
   ⟨false, ⟨false, false, false, none, false⟩, ⟨"", []⟩⟩, true⟩

/-- Witness for claim C9, with a failing close. -/
theorem c9_witness :
    (processWallet zeroAddress closeFailEnv).closes = 1 ∧
    (processWallet zeroAddress closeFailEnv).cleanups = 1 :=
  c9_cleanup_exactly_once zeroAddress closeFailEnv rfl

/-! ## Claim C2 -/

/-- Decoding a valid code point gives back its value. -/
theorem toNat_ofNat_valid (n : Nat) (h : n.isValidChar) : (Char.ofNat n).toNat = n := by
  simp only [Char.ofNat, h, dif_pos, Char.ofNatAux, Char.toNat, UInt32.toNat,
    BitVec.toNat_ofNatLt]

/-- `Char.toLower` fixes characters outside the upper-case ASCII range. -/
theorem toLower_fix (x : Char) (h : ¬ (x.toNat ≥ 65 ∧ x.toNat ≤ 90)) :
    Char.toLower x = x := by
  unfold Char.toLower
  exact if_neg h

/-- `Char.toLower` is idempotent. -/
theorem toLower_idem (c : Char) : Char.toLower (Char.toLower c) = Char.toLower c := by
  by_cases h : c.toNat ≥ 65 ∧ c.toNat ≤ 90
  · have heq : Char.toLower c = Char.ofNat (c.toNat + 32) := by
      unfold Char.toLower
      exact if_pos h
    rw [heq]
    have hv : (c.toNat + 32).isValidChar := Or.inl (by omega)
    apply toLower_fix
    rw [toNat_ofNat_valid _ hv]
    omega
  · rw [toLower_fix c h, toLower_fix c h]

/-- Lower-casing a character list is idempotent. -/
theorem lowerList_idem (l : List Char) : lowerList (lowerList l) = lowerList l := by
  induction l with
  | nil => rfl
  | cons c r ih =>
    unfold lowerList at ih ⊢
    simp only [List.map_cons, List.cons.injEq]
    exact ⟨toLower_idem c, ih⟩

/-- Per-character lower-casing of a string (`Char.toLower` at every
position), the normalization the claim compares addresses against. -/
def lowerStr (s : String) : String :=
  String.mk (lowerList s.data)

/-- Claim C2: on every valid private key, `getAddressFromPrivateKey` is
deterministic — it is a pure function, so two calls on the same key give
byte-identical strings — and its result is lower-case-normalized: equal to
its own lower-casing. -/
theorem c2_deriveAddress_deterministic_lowercase (k : String)
    (h : hex66 k.data = true) :
    getAddressFromPrivateKey k = getAddressFromPrivateKey k ∧
    lowerStr (getAddressFromPrivateKey k) = getAddressFromPrivateKey k := by
  refine ⟨rfl, ?_⟩
  unfold getAddressFromPrivateKey privateKeyToAccount
  simp only [h, if_true]
  exact congrArg String.mk (lowerList_idem k.data)

/-- Witness for claim C2 at a concrete valid key containing upper-case
hex digits. -/
theorem c2_deriveAddress_witness :
    lowerStr (getAddressFromPrivateKey
      "0xABCDEF0000000000000000000000000000000000000000000000000000000000") =
    getAddressFromPrivateKey
      "0xABCDEF0000000000000000000000000000000000000000000000000000000000" :=
  (c2_deriveAddress_deterministic_lowercase
    "0xABCDEF0000000000000000000000000000000000000000000000000000000000"
    (by decide)).2

/-! ## Claim C10 (`loadPrivateKeys`, rainbow.ts 37-71)

The encrypted-keys branch of `loadPrivateKeys` (lines 39-46) delegates to
the external `KeyEncryption` module, whose code is not under `src/`; per
the spec the Key Source then simply supplies the decrypted key list.  The
definitions below model the `keys.txt` parsing branch (lines 49-70), which
is the code the claim is about: split on newlines, trim, drop empty and
`#`-prefixed lines, keep `^0x[a-fA-F0-9]{64}$` lines as they are and
prepend `0x` to `^[a-fA-F0-9]{64}$` lines. -/

/-- JavaScript `content.split('\n')` on a character list. -/
def splitLines : List Char → List (List Char)
  | [] => [[]]
  | c :: r =>
    if c = '\n' then [] :: splitLines r
    else
      match splitLines r with
      | [] => [[c]]
      | h :: t => (c :: h) :: t

/-- The keys one line contributes (the loop body, rainbow.ts 59-68). -/
def lineKeys (line : List Char) : List String :=
  match trimWs line with
  | [] => []
  | c :: t =>
    if c = '#' then []
    else if hex66 (c :: t) then [String.mk (c :: t)]
    else if hex64 (c :: t) then [String.mk ('0' :: 'x' :: c :: t)]
    else []

/-- `loadPrivateKeys` on the contents of `keys.txt`. -/
def loadPrivateKeys (content : String) : List String :=
  (splitLines content.data).flatMap lineKeys

/-- Prepending `0x` to a 64-hex-digit line gives a full key pattern
match. -/
theorem hex66_prepend (l : List Char) (h : hex64 l = true) :
    hex66 ('0' :: 'x' :: l) = true :=
  h

/-- A line of hex digits can never match the `0x`-prefixed pattern
(`x` is not a hex digit). -/
theorem hex66_false_of_all_hex (l : List Char) (h : l.all isHexDigit = true) :
    hex66 l = false := by
  unfold hex66
  split
  · rename_i rest
    simp only [List.all_cons, Bool.and_eq_true] at h
    exact absurd h.2.1 (by decide)
  · rfl

/-- Claim C10: every string `loadPrivateKeys` returns matches
`^0x[a-fA-F0-9]{64}$`; a trimmed line of exactly 64 hex digits is returned
with `0x` prepended; empty lines, `#`-prefixed lines, and lines of any
other shape contribute nothing. -/
theorem c10_loaded_keys_wellformed (content : String) :
    (∀ k, k ∈ loadPrivateKeys content → hex66 k.data = true) ∧
    (∀ line, trimWs line = [] → lineKeys line = []) ∧
    (∀ line c t, trimWs line = c :: t → c = '#' → lineKeys line = []) ∧
    (∀ line, hex64 (trimWs line) = true →
      lineKeys line = [String.mk ('0' :: 'x' :: trimWs line)]) ∧
    (∀ line, hex66 (trimWs line) = false → hex64 (trimWs line) = false →
      lineKeys line = []) := by
  refine ⟨?_, ?_, ?_, ?_, ?_⟩
  · intro k hk
    unfold loadPrivateKeys at hk
    obtain ⟨l, hl, hk2⟩ := List.mem_flatMap.mp hk
    unfold lineKeys at hk2
    cases ht : trimWs l with
    | nil => rw [ht] at hk2; cases hk2
    | cons c t =>
      rw [ht] at hk2
      simp only at hk2
      by_cases hc : c = '#'
      · rw [if_pos hc] at hk2; cases hk2
      · rw [if_neg hc] at hk2
        by_cases h66 : hex66 (c :: t) = true
        · rw [if_pos h66] at hk2
          have hkx : k = String.mk (c :: t) := by simpa using hk2
          rw [hkx]
          exact h66
        · rw [if_neg h66] at hk2
          by_cases h64 : hex64 (c :: t) = true
          · rw [if_pos h64] at hk2
            have hkx : k = String.mk ('0' :: 'x' :: c :: t) := by simpa using hk2
            rw [hkx]
            exact hex66_prepend _ h64
          · rw [if_neg h64] at hk2; cases hk2
  · intro line hline
    unfold lineKeys
    rw [hline]
  · intro line c t hline hc
    unfold lineKeys
    rw [hline]
    simp only
    rw [if_pos hc]
  · intro line h64
    unfold lineKeys
    cases ht : trimWs line with
    | nil =>
      rw [ht] at h64
      exact absurd h64 (by decide)
    | cons c t =>
      rw [ht] at h64
      have hall : (c :: t).all isHexDigit = true := by
        have h2 := h64
        unfold hex64 at h2
        rw [Bool.and_eq_true] at h2
        exact h2.2
      have hch : isHexDigit c = true := by
        simp only [List.all_cons, Bool.and_eq_true] at hall
        exact hall.1
      have hcn : ¬ (c = '#') := by
        intro hcc
        rw [hcc] at hch
        exact absurd hch (by decide)
      have h66 : ¬ (hex66 (c :: t) = true) := by
        rw [hex66_false_of_all_hex _ hall]
        simp
      simp only
      rw [if_neg hcn, if_neg h66, if_pos h64]
  · intro line h66 h64
    unfold lineKeys
    cases ht : trimWs line with
    | nil => rfl
    | cons c t =>
      rw [ht] at h66 h64
      simp only
      by_cases hc : c = '#'
      · rw [if_pos hc]
      · rw [if_neg hc, if_neg (by simp [h66]), if_neg (by simp [h64])]

/-- A `keys.txt` content exercising every line shape. -/
def demoKeysContent : String :=
  "# comment\n\nabcdef0123456789abcdef0123456789abcdef0123456789abcdef0123456789\nnot a key\n"

/-- Witness for claim C10 on concrete file contents: the prefixed form of
the bare 64-hex-digit line is among the loaded keys and matches the key
pattern. -/
theorem c10_loaded_keys_witness :
    hex66 ("0xabcdef0123456789abcdef0123456789abcdef0123456789abcdef0123456789").data
      = true :=
  (c10_loaded_keys_wellformed demoKeysContent).1
    "0xabcdef0123456789abcdef0123456789abcdef0123456789abcdef0123456789" (by decide)
